import Mathlib

/-!
Shallow embedding of `watsononlinestore/watson_online_store.py`.

Strings are modelled as `List Char` (`Str`); Python `str.find` / `str.rfind`
return `Int` (−1 on failure) exactly as in CPython, slicing is drop/take,
dicts are insertion-ordered association lists with unique keys, and the
Cloudant shopping-cart store is modelled as the stored item list together
with a trace of the add/delete calls issued to it.  Fallible Python code
(attribute access on `None`, missing dict keys) is modelled with `Except`.
-/

set_option autoImplicit false

namespace WOS

abbrev Str := List Char

/-- Model of Python `s.find(sub, start, len(s))`: the lowest index `i ≥ start`
at which `sub` occurs in `s`, as an `Int`, or `-1` when there is none.
`subFind` returns the offset within the dropped suffix. -/
def subFind (sub : Str) : Str → Option Nat
  | [] => if sub.isEmpty then some 0 else none
  | c :: rest =>
    if sub.isPrefixOf (c :: rest) then some 0
    else (subFind sub rest).map (· + 1)

def pyFind (s sub : Str) (start : Nat) : Int :=
  match subFind sub (s.drop start) with
  | some j => ((start + j : Nat) : Int)
  | none => -1

/-- Model of Python `s.rfind(sub)`: the highest index at which `sub` occurs,
or `-1` when there is none. -/
def subRFind (sub : Str) : Str → Option Nat
  | [] => if sub.isEmpty then some 0 else none
  | c :: rest =>
    match subRFind sub rest with
    | some j => some (j + 1)
    | none => if sub.isPrefixOf (c :: rest) then some 0 else none

def pyRFind (s sub : Str) : Int :=
  match subRFind sub s with
  | some j => (j : Int)
  | none => -1

/-- Python slice `s[a:b]` for non-negative bounds. -/
def pySlice (s : Str) (a b : Nat) : Str := (s.drop a).take (b - a)

/-- `sub` occurs in `s` at index `p`. -/
def OccursAt (sub s : Str) (p : Nat) : Prop := sub.isPrefixOf (s.drop p) = true

instance (sub s : Str) (p : Nat) : Decidable (OccursAt sub s p) := by
  unfold OccursAt; infer_instance

/-- Model of Python `int(s)` on a string: optional surrounding whitespace,
optional sign, then a non-empty digit run; anything else raises `ValueError`
(modelled as `none`). -/
def pyInt (s : Str) : Option Int :=
  let t := ((s.dropWhile Char.isWhitespace).reverse.dropWhile
    Char.isWhitespace).reverse
  let core : Str → Option Int := fun ds =>
    if ds ≠ [] ∧ ds.all Char.isDigit then
      some ((ds.foldl (fun a c => 10 * a + (c.toNat - 48)) 0 : Nat) : Int)
    else none
  match t with
  | '+' :: ds => core ds
  | '-' :: ds => (core ds).map (fun n => -n)
  | ds => core ds

/-! ## Python dicts as insertion-ordered association lists -/

/-- Insertion-ordered dictionary with `String` keys. -/
abbrev Dict (V : Type) := List (String × V)

/-- `d[k]` as an option: the value at the first entry whose key is `k`. -/
def dictGet {V : Type} : Dict V → String → Option V
  | [], _ => none
  | (k', v) :: rest, k => if k' = k then some v else dictGet rest k

/-- `d[k] = v`: replace the value at an existing key, else append. -/
def dictSet {V : Type} : Dict V → String → V → Dict V
  | [], k, v => [(k, v)]
  | (k', v') :: rest, k, v =>
    if k' = k then (k, v) :: rest else (k', v') :: dictSet rest k v

/-- `d1.update(d2)`: set each entry of `d2` in `d1`, in order. -/
def dictUpdate {V : Type} (d1 d2 : Dict V) : Dict V :=
  d2.foldl (fun acc p => dictSet acc p.1 p.2) d1

/-- `WatsonOnlineStore.context_merge`: copy `dict1`, and when `dict2` is
truthy (non-empty) update with it.  Common data in `dict2` overrides. -/
def context_merge {V : Type} (dict1 dict2 : Dict V) : Dict V :=
  if dict2.isEmpty then dict1 else dictUpdate dict1 dict2

@[simp] theorem dictGet_dictSet_same {V : Type} (d : Dict V) (k : String) (v : V) :
    dictGet (dictSet d k v) k = some v := by
  induction d with
  | nil => simp [dictSet, dictGet]
  | cons hd tl ih =>
    obtain ⟨k', v'⟩ := hd
    by_cases h : k' = k <;> simp [dictSet, dictGet, h, ih]

theorem dictGet_dictSet_other {V : Type} (d : Dict V) (k k' : String) (v : V)
    (hne : k' ≠ k) : dictGet (dictSet d k v) k' = dictGet d k' := by
  have hne' : k ≠ k' := Ne.symm hne
  induction d with
  | nil => simp [dictSet, dictGet, hne']
  | cons hd tl ih =>
    obtain ⟨k₀, v₀⟩ := hd
    by_cases h : k₀ = k
    · subst h
      simp [dictSet, dictGet, hne']
    · by_cases h' : k₀ = k' <;> simp [dictSet, dictGet, h, h', hne, ih]

theorem dictGet_eq_none_of_not_mem_keys {V : Type} (d : Dict V) (k : String)
    (h : k ∉ d.map Prod.fst) : dictGet d k = none := by
  induction d with
  | nil => rfl
  | cons hd tl ih =>
    obtain ⟨k₀, v₀⟩ := hd
    simp only [List.map_cons, List.mem_cons] at h
    push_neg at h
    simp [dictGet, Ne.symm h.1, ih h.2]

theorem dictGet_dictUpdate {V : Type} (d2 : Dict V)
    (hk : (d2.map Prod.fst).Nodup) (d1 : Dict V) (k : String) :
    dictGet (dictUpdate d1 d2) k =
      match dictGet d2 k with
      | some v => some v
      | none => dictGet d1 k := by
  induction d2 generalizing d1 with
  | nil => simp [dictUpdate, dictGet]
  | cons hd tl ih =>
    obtain ⟨k₀, v₀⟩ := hd
    simp only [List.map_cons, List.nodup_cons] at hk
    have step : dictUpdate d1 ((k₀, v₀) :: tl) =
        dictUpdate (dictSet d1 k₀ v₀) tl := rfl
    rw [step, ih hk.2]
    by_cases h : k₀ = k
    · subst h
      have : dictGet tl k₀ = none :=
        dictGet_eq_none_of_not_mem_keys tl k₀ hk.1
      simp [dictGet, this]
    · simp [dictGet, h, dictGet_dictSet_other d1 k₀ k v₀ (fun hh => h hh.symm)]

theorem dictGet_context_merge {V : Type} (d1 d2 : Dict V)
    (hk : (d2.map Prod.fst).Nodup) (k : String) :
    dictGet (context_merge d1 d2) k =
      match dictGet d2 k with
      | some v => some v
      | none => dictGet d1 k := by
  unfold context_merge
  by_cases h : d2.isEmpty
  · rw [List.isEmpty_iff] at h
    subst h
    simp [dictGet]
  · simp only [h, if_false]
    exact dictGet_dictUpdate d2 hk d1 k

/-! ## Discovery result entries and per-source field extraction -/

/-- `entry['extracted_metadata']`: only the `title` field is read. -/
structure Metadata where
  title : Option Str
deriving DecidableEq

/-- One raw Discovery result document.  Fields are optional: `'text' in entry`
etc. are membership tests in the source. -/
structure Entry where
  extracted_metadata : Option Metadata := none
  text : Option Str := none
  html : Option Str := none
  score : Option ℚ := none
deriving DecidableEq

-- Module-level constants of watson_online_store.py.
def DISCOVERY_QUERY_COUNT : Nat := 10
def DISCOVERY_KEEP_COUNT : Nat := 5
def DISCOVERY_TRUNCATE : Nat := 500

/-- `get_product_name(entry, data_source)` (nested in
`format_discovery_response`).  For `amazon` read
`extracted_metadata['title']`; for `ibm_store` scan the text blob for
`"Product:"` (accepted only at a strictly positive index) and slice up to one
character before the following `"Category:"`. -/
def get_product_name (entry : Entry) (data_source : String) : Str :=
  if data_source = "amazon" then
    match entry.extracted_metadata with
    | some metadata =>
      match metadata.title with
      | some t => t
      | none => []
    | none => []
  else if data_source = "ibm_store" then
    match entry.text with
    | some text =>
      let product_tag := "Product:".data
      let category_tag := "Category:".data
      let sidx := pyFind text product_tag 0
      if sidx > 0 then
        let sidx' := sidx.toNat + product_tag.length
        let eidx := pyFind text category_tag sidx'
        if eidx > 0 then pySlice text sidx' (eidx.toNat - 1)
        else []
      else []
    | none => []
  else []

/-- `get_product_url(entry, data_source)`.  For `amazon` take the last
`"<a href="` (via `rfind`), slice from one past it to one before the next
`'>'`; for `ibm_store` build the URL from the 6 characters after the first
`"/ProductDetail.aspx?pid="`. -/
def get_product_url (entry : Entry) (data_source : String) : Str :=
  match entry.html with
  | none => []
  | some html =>
    if data_source = "amazon" then
      let href_tag := "<a href=".data
      let sidx := pyRFind html href_tag
      if sidx > 0 then
        let sidx' := sidx.toNat + href_tag.length
        let eidx := pyFind html ['>'] sidx'
        if eidx > 0 then pySlice html (sidx' + 1) (eidx.toNat - 1)
        else []
      else []
    else if data_source = "ibm_store" then
      let url_start := "http://www.logostore-globalid.us".data
      let href_tag := "/ProductDetail.aspx?pid=".data
      let sidx := pyFind html href_tag 0
      if sidx > 0 then
        let sidx' := sidx.toNat + href_tag.length
        let product_id := pySlice html sidx' (sidx' + 6)
        url_start ++ href_tag ++ product_id
      else []
    else []

/-- A maximal leftmost match of the regex `scale\x5b[0-9]+\x5d` at the head of
`s`, returning its length. -/
def scaleMatchLen (s : Str) : Option Nat :=
  if ("scale[".data).isPrefixOf s then
    let rest := s.drop 6
    let ds := rest.takeWhile Char.isDigit
    if ds.isEmpty then none
    else
      match rest.drop ds.length with
      | ']' :: _ => some (6 + ds.length + 1)
      | _ => none
  else none

theorem scaleMatchLen_pos {s : Str} {n : Nat} (h : scaleMatchLen s = some n) :
    1 ≤ n := by
  unfold scaleMatchLen at h
  by_cases hp : ("scale[".data).isPrefixOf s
  · simp only [hp, if_true] at h
    by_cases he : ((s.drop 6).takeWhile Char.isDigit).isEmpty
    · simp [he] at h
    · simp only [he, if_false] at h
      rcases hm : (s.drop 6).drop ((s.drop 6).takeWhile Char.isDigit).length with
        _ | ⟨c, rest⟩ <;> rw [hm] at h
      · simp at h
      · by_cases hc : c = ']'
        · subst hc
          simp at h
          omega
        · simp [hc] at h
  · simp [hp] at h

/-- `re.sub(<scale pattern>, 'scale[50]', img)`: replace every leftmost
non-overlapping match. -/
def reSubScale : Str → Str
  | [] => []
  | c :: rest =>
    match scaleMatchLen (c :: rest) with
    | some n => "scale[50]".data ++ reSubScale (rest.drop (n - 1))
    | none => c :: reSubScale rest
termination_by s => s.length
decreasing_by
  · simp only [List.length_cons, List.length_drop]
    omega
  · simp

/-- `get_image_url(entry, data_source)`.  Amazon has no image URL (uses the
product URL); `ibm_store` reads the `jqzoom` anchor and shrinks the scale
directive. -/
def get_image_url (entry : Entry) (data_source : String) : Str :=
  if data_source = "amazon" then get_product_url entry data_source
  else if data_source = "ibm_store" then
    match entry.html with
    | some html =>
      let img_tag := "<a class=\"jqzoom\" href=\"".data
      let simg := pyFind html img_tag 0
      if simg > 0 then
        let simg' := simg.toNat + img_tag.length
        let eimg := pyFind html ['"'] simg'
        if eimg > 0 then reSubScale (pySlice html simg' eimg.toNat)
        else []
      else []
    | none => []
  else []

/-- Python `s.replace(c, t)` for a single-character pattern. -/
def replaceChar (s : Str) (c : Char) (t : Str) : Str :=
  s.flatMap (fun x => if x = c then t else [x])

/-- `slack_encode(input_text)`: escape `&`, `<`, `>` in that order. -/
def slack_encode (input_text : Str) : Str :=
  if input_text.isEmpty then input_text
  else
    replaceChar
      (replaceChar (replaceChar input_text '&' "&amp;".data) '<' "&lt;".data)
      '>' "&gt;".data

/-! ## Discovery response formatting and score filtering -/

/-- One formatted product entry (the dict built per result). -/
structure ProductData where
  cart_number : Str
  name : Str
  url : Str
  image : Str
deriving DecidableEq

/-- The Discovery service response: `results` is present or absent, and
`matching_results` is overwritten by the score filter. -/
structure DiscoveryResponse where
  results : Option (List Entry) := none
  matching_results : Option Nat := none
deriving DecidableEq

/-- `WatsonOnlineStore.format_discovery_response(response, data_source)`:
guard on a non-empty `results` list, then build one `ProductData` per result
for indices `0 ≤ i < min(len(results), DISCOVERY_KEEP_COUNT)`, with
`cart_number` counting up from 1. -/
def format_discovery_response (response : DiscoveryResponse)
    (data_source : String) : List ProductData :=
  match response.results with
  | none => []
  | some results =>
    if results.isEmpty then []
    else
      (results.take DISCOVERY_KEEP_COUNT).enum.map (fun p =>
        { cart_number := (Nat.repr (p.1 + 1)).data
          name := slack_encode (get_product_name p.2 data_source)
          url := slack_encode (get_product_url p.2 data_source)
          image := slack_encode (get_image_url p.2 data_source) })

/-- The score-filter step of `get_discovery_response` (lines 566–571): when
`discovery_score_filter` is truthy (non-zero) and `results` is present, keep
entries having a `score` strictly greater than the filter, and record the
filtered count in `matching_results`. -/
def apply_score_filter (response : DiscoveryResponse)
    (discovery_score_filter : ℚ) : DiscoveryResponse :=
  if discovery_score_filter ≠ 0 ∧ response.results.isSome then
    match response.results with
    | some results =>
      let fr := results.filter (fun x =>
        x.score.isSome && match x.score with
          | some sc => decide (sc > discovery_score_filter)
          | none => false)
      { results := some fr, matching_results := some fr.length }
    | none => response
  else response

/-- The plain-text rendering loop of `get_discovery_response`:
`"\n" + cart_number + ") " + name + "\n" + image` per item. -/
def render_discovery_items (items : List ProductData) : Str :=
  items.foldl (fun acc item =>
    acc ++ '\n' :: item.cart_number ++ ") ".data ++ item.name ++
      '\n' :: item.image) []

/-- `get_discovery_response(input_text)` after the Discovery query returned
`discovery_response`: filter by score, format, remember the response tuple,
render, and wrap under the `discovery_result` key. -/
def get_discovery_response (discovery_response : DiscoveryResponse)
    (data_source : String) (discovery_score_filter : ℚ) :
    List ProductData × Dict Str :=
  let response := format_discovery_response
    (apply_score_filter discovery_response discovery_score_filter) data_source
  (response, [("discovery_result", render_discovery_items response)])

/-! ## Session state, cart handlers and the message dispatch -/

/-- `OnlineStoreCustomer` (only identity fields; the handlers read `email`). -/
structure OnlineStoreCustomer where
  email : Str
  first_name : Str
  last_name : Str
deriving DecidableEq

/-- Python runtime errors the handlers can raise: attribute access on `None`
(`self.customer.email`) and a missing dict key (`self.context['cart_item']`). -/
inductive PyErr where
  | attributeError
  | keyError
deriving DecidableEq

/-- The mutable state of a `WatsonOnlineStore` instance relevant to message
handling, together with the Cloudant store: `cart` is the stored shopping
cart of the session customer, and `deleted` / `added` record the
`delete_item_shopping_cart` / `add_to_shopping_cart` calls issued. -/
structure St where
  context : Dict Str
  customer : Option OnlineStoreCustomer
  response_tuple : List ProductData
  cart : List Str
  deleted : List Str
  added : List Str
deriving DecidableEq

/-- `clear_shopping_cart`: set both fields to the empty string. -/
def clear_shopping_cart (context : Dict Str) : Dict Str :=
  dictSet (dictSet context "shopping_cart" []) "cart_item" []

/-- `handle_list_shopping_cart`: reads `self.customer.email` (raising
`AttributeError` when the customer is `None`), lists the stored cart,
renders it as numbered lines, and stores the text under `shopping_cart`. -/
def handle_list_shopping_cart (st : St) : Except PyErr (St × Bool) :=
  match st.customer with
  | none => .error .attributeError
  | some _ =>
    let shopping_list := st.cart
    let formatted_out := shopping_list.enum.foldl (fun acc p =>
      acc ++ (Nat.repr (p.1 + 1)).data ++ ") ".data ++ p.2 ++ ['\n']) []
    .ok ({ st with context := dictSet st.context "shopping_cart" formatted_out },
      false)

/-- `handle_delete_from_cart`: read `self.customer.email`, list the stored
cart, parse `context['cart_item']` as an int (on `ValueError` return `False`
at once, without clearing), delete the item at the matching 1-based
position, then clear `shopping_cart`/`cart_item`. -/
def handle_delete_from_cart (st : St) : Except PyErr (St × Bool) :=
  match st.customer with
  | none => .error .attributeError
  | some _ =>
    let shopping_list := st.cart
    match dictGet st.context "cart_item" with
    | none => .error .keyError
    | some ci =>
      match pyInt ci with
      | none => .ok (st, false)
      | some item_num =>
        let matched := (shopping_list.enum.filter (fun p =>
          decide ((p.1 : Int) + 1 = item_num))).map Prod.snd
        .ok ({ st with
          cart := matched.foldl (fun c item => c.erase item) st.cart
          deleted := st.deleted ++ matched
          context := clear_shopping_cart st.context }, false)

/-- `handle_add_to_cart`: parse `context['cart_item']` as an int (on
`ValueError` return `False` at once, without clearing), read
`self.customer.email`, add the entry of `self.response_tuple` at the matching
1-based position as `"<name>: <url>\n"`, then clear
`shopping_cart`/`cart_item`. -/
def handle_add_to_cart (st : St) : Except PyErr (St × Bool) :=
  match dictGet st.context "cart_item" with
  | none => .error .keyError
  | some ci =>
    match pyInt ci with
    | none => .ok (st, false)
    | some cart_item =>
      match st.customer with
      | none => .error .attributeError
      | some _ =>
        let adds := (st.response_tuple.enum.filter (fun p =>
          decide ((p.1 : Int) + 1 = cart_item))).map (fun p =>
            p.2.name ++ ": ".data ++ p.2.url ++ ['\n'])
        .ok ({ st with
          cart := st.cart ++ adds
          added := st.added ++ adds
          context := clear_shopping_cart st.context }, false)

/-- `handle_DiscoveryQuery` on the configured-client path:
`get_discovery_response` on the raw Discovery response (the external query
result is a parameter), merge `{'discovery_result': ...}` into the context,
and return `False` (no user input needed). -/
def handle_DiscoveryQuery (st : St) (discovery_response : DiscoveryResponse)
    (data_source : String) (discovery_score_filter : ℚ) : St × Bool :=
  let r := get_discovery_response discovery_response data_source
    discovery_score_filter
  ({ st with
    response_tuple := r.1
    context := context_merge st.context r.2 }, false)

/-- Truthiness of a string-valued context field: present and non-empty
(`'k' in self.context.keys() and self.context['k']`, resp. `... != ''`). -/
def keyNonEmpty (context : Dict Str) (k : String) : Bool :=
  match dictGet context k with
  | some s => !s.isEmpty
  | none => false

/-- The routing portion of `handle_message` (lines 676–700), evaluated on the
merged context after the Watson exchange: the fixed priority chain of
`if` tests, returning `True` exactly when user input is required. -/
def handle_message_dispatch (st : St) (has_discovery_client : Bool)
    (discovery_response : DiscoveryResponse) (data_source : String)
    (discovery_score_filter : ℚ) : Except PyErr (St × Bool) :=
  if keyNonEmpty st.context "discovery_string" ∧ has_discovery_client then
    .ok (handle_DiscoveryQuery st discovery_response data_source
      discovery_score_filter)
  else if dictGet st.context "shopping_cart" = some "list".data then
    handle_list_shopping_cart st
  else if dictGet st.context "shopping_cart" = some "add".data ∧
      keyNonEmpty st.context "cart_item" then
    handle_add_to_cart st
  else if dictGet st.context "shopping_cart" = some "delete".data ∧
      keyNonEmpty st.context "cart_item" then
    handle_delete_from_cart st
  else if dictGet st.context "get_input" = some "no".data then
    .ok (st, false)
  else
    .ok (st, true)

/-! ## Occurrence lemmas for the find / rfind models -/

theorem subFind_of_isPrefixOf {sub s : Str} (h : sub.isPrefixOf s = true) :
    subFind sub s = some 0 := by
  cases s with
  | nil =>
    cases sub with
    | nil => rfl
    | cons c cs => simp [List.isPrefixOf] at h
  | cons c rest => simp [subFind, h]

theorem pyFind_zero_of_isPrefixOf {s sub : Str} (h : sub.isPrefixOf s = true) :
    pyFind s sub 0 = 0 := by
  simp [pyFind, subFind_of_isPrefixOf h]

theorem not_occursAt_of_subRFind_none {sub s : Str} (hsub : sub ≠ [])
    (h : subRFind sub s = none) : ∀ q, ¬ OccursAt sub s q := by
  induction s with
  | nil =>
    intro q hq
    rw [OccursAt, List.drop_eq_nil_of_eq_nil rfl] at hq
    cases sub with
    | nil => exact hsub rfl
    | cons c cs => simp [List.isPrefixOf] at hq
  | cons c rest ih =>
    intro q hq
    unfold subRFind at h
    rcases hrest : subRFind sub rest with _ | j
    · rw [hrest] at h
      by_cases hp : sub.isPrefixOf (c :: rest) = true
      · simp [hp] at h
      · cases q with
        | zero => exact hp hq
        | succ q' => exact ih hrest q' hq
    · rw [hrest] at h
      simp at h

theorem occursAt_of_subRFind_some {sub s : Str} {p : Nat}
    (h : subRFind sub s = some p) : OccursAt sub s p := by
  induction s generalizing p with
  | nil =>
    unfold subRFind at h
    by_cases he : sub.isEmpty
    · rw [List.isEmpty_iff] at he
      subst he
      simp at h
      subst h
      rfl
    · simp [he] at h
  | cons c rest ih =>
    unfold subRFind at h
    rcases hrest : subRFind sub rest with _ | j
    · rw [hrest] at h
      by_cases hp : sub.isPrefixOf (c :: rest) = true
      · simp [hp] at h
        subst h
        exact hp
      · simp [hp] at h
    · rw [hrest] at h
      simp at h
      subst h
      exact ih hrest

theorem le_of_occursAt_of_subRFind_some {sub s : Str} {p : Nat}
    (hsub : sub ≠ []) (h : subRFind sub s = some p) :
    ∀ q, OccursAt sub s q → q ≤ p := by
  induction s generalizing p with
  | nil =>
    intro q hq
    rw [OccursAt, List.drop_eq_nil_of_eq_nil rfl] at hq
    cases sub with
    | nil => exact absurd rfl hsub
    | cons c cs => simp [List.isPrefixOf] at hq
  | cons c rest ih =>
    intro q hq
    unfold subRFind at h
    rcases hrest : subRFind sub rest with _ | j
    · rw [hrest] at h
      by_cases hp : sub.isPrefixOf (c :: rest) = true
      · simp [hp] at h
        subst h
        cases q with
        | zero => exact Nat.le_refl 0
        | succ q' =>
          exact absurd hq (not_occursAt_of_subRFind_none hsub hrest q')
      · simp [hp] at h
    · rw [hrest] at h
      simp at h
      subst h
      cases q with
      | zero => exact Nat.zero_le _
      | succ q' => exact Nat.succ_le_succ (ih hrest q' hq)

theorem subRFind_isSome_of_occursAt {sub s : Str} {q : Nat}
    (hq : OccursAt sub s q) : (subRFind sub s).isSome = true := by
  induction s generalizing q with
  | nil =>
    rw [OccursAt, List.drop_eq_nil_of_eq_nil rfl] at hq
    cases sub with
    | nil => rfl
    | cons c cs => simp [List.isPrefixOf] at hq
  | cons c rest ih =>
    unfold subRFind
    rcases hrest : subRFind sub rest with _ | j
    · show (if sub.isPrefixOf (c :: rest) = true then some 0 else none).isSome = true
      cases q with
      | zero =>
        have hq' : sub.isPrefixOf (c :: rest) = true := hq
        rw [if_pos hq']
        rfl
      | succ q' =>
        have := ih (q := q') hq
        rw [hrest] at this
        simp at this
    · rfl

/-- The last occurrence: when `sub` occurs at `q` and nowhere later,
`rfind` returns `q`. -/
theorem subRFind_eq_of_last_occurrence {sub s : Str} {q : Nat}
    (hsub : sub ≠ []) (hq : OccursAt sub s q)
    (hlast : ∀ r, q < r → ¬ OccursAt sub s r) :
    subRFind sub s = some q := by
  rcases hfind : subRFind sub s with _ | p
  · have := subRFind_isSome_of_occursAt hq
    rw [hfind] at this
    simp at this
  · have hqp : q ≤ p := le_of_occursAt_of_subRFind_some hsub hfind q hq
    have hpocc : OccursAt sub s p := occursAt_of_subRFind_some hfind
    rcases Nat.lt_or_ge q p with hlt | hge
    · exact absurd hpocc (hlast p hlt)
    · have : p = q := Nat.le_antisymm (Nat.le_of_lt_succ (Nat.lt_succ_of_le hge)) hqp
      rw [this]

theorem not_occursAt_of_length_le {sub s : Str} {q : Nat} (hsub : sub ≠ [])
    (h : s.length ≤ q) : ¬ OccursAt sub s q := by
  intro hq
  rw [OccursAt, List.drop_eq_nil_of_le h] at hq
  cases sub with
  | nil => exact hsub rfl
  | cons c cs => simp [List.isPrefixOf] at hq

theorem getElem?_of_occursAt_cons {c : Char} {sub s : Str} {q : Nat}
    (h : OccursAt (c :: sub) s q) : s[q]? = some c := by
  rw [OccursAt, List.isPrefixOf_iff_prefix] at h
  obtain ⟨t, ht⟩ := h
  have : (s.drop q)[0]? = some c := by rw [← ht]; simp
  rwa [List.getElem?_drop] at this

/-- First occurrence of a single character: `find` on `xs ++ c :: rest`
returns `len xs` when `c` does not occur in `xs`. -/
theorem subFind_single {c : Char} (xs rest : Str) (h : c ∉ xs) :
    subFind [c] (xs ++ c :: rest) = some xs.length := by
  induction xs with
  | nil => simp [subFind, List.isPrefixOf]
  | cons x xs' ih =>
    simp only [List.mem_cons] at h
    push_neg at h
    have hx : ([c].isPrefixOf (x :: (xs' ++ c :: rest))) = false := by
      simp [List.isPrefixOf]
      exact h.1
    rw [List.cons_append]
    unfold subFind
    rw [hx]
    simp [ih h.2]

/-! ## Claim theorems -/

-- Concrete states used to exercise the handlers.

/-- A session whose pending delete/add carries a non-numeric `cart_item`. -/
def stNonNum : St :=
  { context := [("shopping_cart", "delete".data), ("cart_item", "abc".data)]
    customer := some ⟨"ann@example.com".data, "Ann".data, "Lee".data⟩
    response_tuple := []
    cart := ["hat".data]
    deleted := []
    added := [] }

/-- C7: for all context dictionaries `A` and `B` (with the well-formed unique
keys every Python dict has), `context_merge A B` looks up to `B`'s value on
every key of `B` and to `A`'s value on keys only in `A`; the merge is
right-biased and hence not commutative on overlapping keys. -/
theorem context_merge_right_biased {V : Type} (A B : Dict V)
    (hB : (B.map Prod.fst).Nodup) (k : String) :
    (dictGet (context_merge A B) k =
      match dictGet B k with
      | some v => some v
      | none => dictGet A k) ∧
    context_merge [("color", "red".data)] [("color", "blue".data)] ≠
      context_merge [("color", "blue".data)] [("color", "red".data)] :=
  ⟨dictGet_context_merge A B hB k, by decide⟩

/-- Closed instance of `context_merge_right_biased` at concrete dicts. -/
theorem context_merge_right_biased_witness :
    (dictGet (context_merge [("a", "1".data), ("b", "2".data)]
        [("b", "3".data), ("c", "4".data)]) "b" =
      match dictGet [("b", "3".data), ("c", "4".data)] "b" with
      | some v => some v
      | none => dictGet [("a", "1".data), ("b", "2".data)] "b") ∧
    context_merge [("color", "red".data)] [("color", "blue".data)] ≠
      context_merge [("color", "blue".data)] [("color", "red".data)] :=
  context_merge_right_biased [("a", "1".data), ("b", "2".data)]
    [("b", "3".data), ("c", "4".data)] (by decide) "b"

/-- C10: for source `ibm_store`, a text blob that starts with the
`"Product:"` marker at index 0 yields the empty name, because the extractor
only accepts `find` results at a strictly positive index. -/
theorem ibm_store_marker_at_index_zero_ignored (rest : Str) :
    get_product_name { text := some ("Product:".data ++ rest) } "ibm_store"
      = [] := by
  have hpre : ("Product:".data).isPrefixOf ("Product:".data ++ rest) = true :=
    List.isPrefixOf_iff_prefix.mpr (List.prefix_append _ _)
  unfold get_product_name
  rw [if_neg (by decide : ¬("ibm_store" = "amazon")), if_pos rfl]
  simp only [pyFind_zero_of_isPrefixOf hpre]
  norm_num

/-- C8 counterexample: on a blob with surrounding text, the extracted
`ibm_store` name is `" Red Mug"` — the separator after `"Product:"` is kept
as a leading space — not `"Red Mug"` as claimed. -/
theorem ibm_store_name_keeps_leading_space :
    get_product_name
      { text := some
          "The catalog entry. Product: Red Mug Category: Drinkware.".data }
      "ibm_store" ≠ "Red Mug".data := by
  decide

/-- C8 amended: the `ibm_store` name on that blob is `" Red Mug"` (the
substring from just after the `"Product:"` marker, keeping the separator
space, up to the `"Category:"` marker, trimmed of one trailing character);
an absent or out-of-order marker yields the empty string. -/
theorem ibm_store_name_extraction_amended :
    get_product_name
      { text := some
          "The catalog entry. Product: Red Mug Category: Drinkware.".data }
      "ibm_store" = " Red Mug".data ∧
    get_product_name
      { text := some "The catalog entry. Product: Red Mug Drinkware.".data }
      "ibm_store" = [] ∧
    get_product_name
      { text := some "Category: Drinkware then Product: Red Mug end.".data }
      "ibm_store" = [] :=
  ⟨rfl, rfl, rfl⟩

/-- C2 counterexample: with `cart_item = "abc"`, both handlers complete as a
no-op, but the `shopping_cart` and `cart_item` context fields are NOT
cleared: the state is returned entirely unchanged, the fields still holding
their non-empty values. -/
theorem nonnumeric_cart_item_context_not_cleared :
    handle_delete_from_cart stNonNum = .ok (stNonNum, false) ∧
    handle_add_to_cart stNonNum = .ok (stNonNum, false) ∧
    dictGet stNonNum.context "cart_item" = some "abc".data ∧
    dictGet stNonNum.context "shopping_cart" = some "delete".data ∧
    "abc".data ≠ ([] : Str) ∧ "delete".data ≠ ([] : Str) :=
  ⟨rfl, rfl, rfl, rfl, by decide, by decide⟩

/-- C2 amended: on a non-numeric `cart_item`, add and delete are no-ops (the
stored cart is unchanged and no error surfaces), but they return immediately
without clearing `shopping_cart`/`cart_item`; clearing happens only on the
numeric path. -/
theorem nonnumeric_cart_item_noop_no_clear (st : St)
    (c : OnlineStoreCustomer) (s : Str) (hc : st.customer = some c)
    (hs : dictGet st.context "cart_item" = some s) (hn : pyInt s = none) :
    handle_delete_from_cart st = .ok (st, false) ∧
    handle_add_to_cart st = .ok (st, false) := by
  constructor
  · unfold handle_delete_from_cart
    rw [hc, hs]
    simp [hn]
  · unfold handle_add_to_cart
    rw [hs]
    simp [hn]

/-- Closed instance of `nonnumeric_cart_item_noop_no_clear`. -/
theorem nonnumeric_cart_item_noop_no_clear_witness :
    handle_delete_from_cart stNonNum = .ok (stNonNum, false) ∧
    handle_add_to_cart stNonNum = .ok (stNonNum, false) :=
  nonnumeric_cart_item_noop_no_clear stNonNum
    ⟨"ann@example.com".data, "Ann".data, "Lee".data⟩ "abc".data rfl rfl rfl

/-- A list request arriving while the session has no resolved customer. -/
def stNoCustList : St :=
  { context := [("shopping_cart", "list".data)]
    customer := none
    response_tuple := []
    cart := []
    deleted := []
    added := [] }

/-- A delete request arriving while the session has no resolved customer. -/
def stNoCustDel : St :=
  { context := [("shopping_cart", "delete".data), ("cart_item", "1".data)]
    customer := none
    response_tuple := []
    cart := ["hat".data]
    deleted := []
    added := [] }

/-- An add request arriving while the session has no resolved customer. -/
def stNoCustAdd : St :=
  { context := [("shopping_cart", "add".data), ("cart_item", "1".data)]
    customer := none
    response_tuple := [⟨"1".data, "Mug".data, "http://u".data, "img".data⟩]
    cart := []
    deleted := []
    added := [] }

/-- C3 is violated by the code: each cart handler dereferences
`self.customer.email`, so with a `None` customer every cart action raises
`AttributeError` instead of being a tolerated no-op, and the router
propagates the crash. -/
theorem cart_handlers_crash_on_null_customer :
    handle_list_shopping_cart stNoCustList = .error .attributeError ∧
    handle_delete_from_cart stNoCustDel = .error .attributeError ∧
    handle_add_to_cart stNoCustAdd = .error .attributeError ∧
    handle_message_dispatch stNoCustList false {} "ibm_store" 0 =
      .error .attributeError :=
  ⟨rfl, rfl, rfl, rfl⟩

theorem enumFrom_filter_eq_nil {α : Type} (xs : List α) (k : Int) (n : Nat)
    (h : k < (n : Int) + 1 ∨ ((n : Int) + xs.length) < k) :
    (List.enumFrom n xs).filter (fun p => decide ((p.1 : Int) + 1 = k))
      = [] := by
  induction xs generalizing n with
  | nil => rfl
  | cons x xs' ih =>
    have hhead : ¬((n : Int) + 1 = k) := by
      rcases h with h | h
      · omega
      · simp only [List.length_cons] at h
        push_cast at h
        omega
    have htail : k < ((n + 1 : Nat) : Int) + 1 ∨
        (((n + 1 : Nat) : Int) + xs'.length) < k := by
      rcases h with h | h
      · left; push_cast; omega
      · right
        simp only [List.length_cons] at h
        push_cast at h ⊢
        omega
    simp only [List.enumFrom, List.filter_cons, hhead, decide_False,
      Bool.false_eq_true, if_false]
    exact ih (n + 1) htail

/-- C4: deleting a numeric ordinal that is out of range (`k < 1` or greater
than the stored cart length) is a silent no-op: the handler completes
without error, issues no delete call to the store, and leaves the cart
contents unchanged. -/
theorem delete_out_of_range_silent_noop (st : St) (c : OnlineStoreCustomer)
    (s : Str) (k : Int) (hc : st.customer = some c)
    (hs : dictGet st.context "cart_item" = some s) (hk : pyInt s = some k)
    (hrange : k < 1 ∨ ((st.cart.length : Int)) < k) :
    ∃ st', handle_delete_from_cart st = .ok (st', false) ∧
      st'.cart = st.cart ∧ st'.deleted = st.deleted := by
  have hmatched :
      (st.cart.enum.filter (fun p => decide ((p.1 : Int) + 1 = k))) = [] := by
    have h0 : k < ((0 : Nat) : Int) + 1 ∨ (((0 : Nat) : Int) + st.cart.length) < k := by
      rcases hrange with h | h
      · left; omega
      · right; push_cast; omega
    exact enumFrom_filter_eq_nil st.cart k 0 h0
  refine ⟨{ st with context := clear_shopping_cart st.context }, ?_, rfl, rfl⟩
  unfold handle_delete_from_cart
  rw [hc, hs]
  simp only [hk, hmatched, List.map_nil, List.foldl_nil, List.append_nil]

/-- Delete ordinal 3 pending against a 2-item stored cart. -/
def stDel3 : St :=
  { context := [("shopping_cart", "delete".data), ("cart_item", "3".data)]
    customer := some ⟨"ann@example.com".data, "Ann".data, "Lee".data⟩
    response_tuple := []
    cart := ["hat".data, "mug".data]
    deleted := []
    added := [] }

/-- Closed instance of `delete_out_of_range_silent_noop`: ordinal 3 against
a 2-item cart. -/
theorem delete_out_of_range_silent_noop_witness :
    ∃ st', handle_delete_from_cart stDel3 = .ok (st', false) ∧
      st'.cart = stDel3.cart ∧ st'.deleted = stDel3.deleted :=
  delete_out_of_range_silent_noop stDel3
    ⟨"ann@example.com".data, "Ann".data, "Lee".data⟩ "3".data 3 rfl rfl rfl
    (by right; decide)

/-- C5: for every Discovery response, the formatted output has length at
most `min(DISCOVERY_KEEP_COUNT, number of results)`, and its `cart_number`
ordinals are exactly the decimal renderings of `1..len(output)`, in order,
with no gaps. -/
theorem format_ordinals_contiguous (response : DiscoveryResponse)
    (data_source : String) :
    (format_discovery_response response data_source).length ≤
      min DISCOVERY_KEEP_COUNT
        (match response.results with
          | some results => results.length
          | none => 0) ∧
    (format_discovery_response response data_source).map
        (fun p => p.cart_number) =
      (List.range (format_discovery_response response data_source).length).map
        (fun i => (Nat.repr (i + 1)).data) := by
  obtain ⟨results, mr⟩ := response
  rcases results with _ | rs
  · exact ⟨by simp [format_discovery_response], by simp [format_discovery_response]⟩
  by_cases hrs : rs.isEmpty
  · rw [List.isEmpty_iff] at hrs
    subst hrs
    exact ⟨by simp [format_discovery_response], by simp [format_discovery_response]⟩
  · have hout : format_discovery_response ⟨some rs, mr⟩ data_source =
        (rs.take DISCOVERY_KEEP_COUNT).enum.map (fun p =>
          { cart_number := (Nat.repr (p.1 + 1)).data
            name := slack_encode (get_product_name p.2 data_source)
            url := slack_encode (get_product_url p.2 data_source)
            image := slack_encode (get_image_url p.2 data_source) }) := by
      simp [format_discovery_response, hrs]
    constructor
    · rw [hout]
      simp [List.length_take]
    · rw [hout, List.map_map]
      have hcomp : ((fun p : ProductData => p.cart_number) ∘ (fun p : Nat × Entry =>
          ({ cart_number := (Nat.repr (p.1 + 1)).data
             name := slack_encode (get_product_name p.2 data_source)
             url := slack_encode (get_product_url p.2 data_source)
             image := slack_encode (get_image_url p.2 data_source) } : ProductData))) =
          (fun i => (Nat.repr (i + 1)).data) ∘ Prod.fst := rfl
      rw [hcomp, ← List.map_map, List.enum_map_fst]
      simp

/-- The example entry list of the score-filter spec sentence. -/
def entryScore (q : ℚ) : Entry := { score := some q }

/-- C6: with a positive minimum score the filter keeps exactly the raw
results carrying a `score` strictly greater than the threshold (dropping
entries without a score), preserving their original relative order (the
output is a sublist); with minimum score 0 no filtering occurs; on scores
`[0.9, 0.4, 0.7, unset]` against 0.6 exactly the 0.9 and 0.7 entries
survive. -/
theorem score_filter_strictly_greater (rs : List Entry) (t : ℚ) (ht : 0 < t) :
    ((apply_score_filter { results := some rs } t).results =
      some (rs.filter (fun x => x.score.isSome &&
        match x.score with
        | some sc => decide (sc > t)
        | none => false))) ∧
    (rs.filter (fun x => x.score.isSome &&
      match x.score with
      | some sc => decide (sc > t)
      | none => false)).Sublist rs ∧
    (∀ x ∈ rs.filter (fun x => x.score.isSome &&
        match x.score with
        | some sc => decide (sc > t)
        | none => false), ∃ sc, x.score = some sc ∧ t < sc) ∧
    apply_score_filter { results := some rs } 0 = { results := some rs } ∧
    apply_score_filter
        { results := some [entryScore (9/10), entryScore (2/5),
            entryScore (7/10), {}] } (3/5) =
      { results := some [entryScore (9/10), entryScore (7/10)]
        matching_results := some 2 } := by
  refine ⟨?_, List.filter_sublist rs, ?_, ?_, ?_⟩
  · unfold apply_score_filter
    rw [if_pos ⟨ne_of_gt ht, rfl⟩]
  · intro x hx
    rw [List.mem_filter] at hx
    rcases hsc : x.score with _ | sc
    · rw [hsc] at hx
      simp at hx
    · rw [hsc] at hx
      simp at hx
      exact ⟨sc, rfl, hx.2⟩
  · unfold apply_score_filter
    rw [if_neg]
    intro hcontra
    exact hcontra.1 rfl
  · unfold apply_score_filter
    rw [if_pos ⟨by norm_num, rfl⟩]
    simp only [entryScore, List.filter]
    norm_num

/-- Closed instance of `score_filter_strictly_greater`: only the concrete
example conjunct, with the hypothesis `0 < 1` discharged. -/
theorem score_filter_strictly_greater_witness :
    apply_score_filter
        { results := some [entryScore (9/10), entryScore (2/5),
            entryScore (7/10), {}] } (3/5) =
      { results := some [entryScore (9/10), entryScore (7/10)]
        matching_results := some 2 } :=
  (score_filter_strictly_greater [] 1 (by norm_num)).2.2.2.2

/-- C1: whenever the merged context carries a non-empty `discovery_string`
and a Discovery client is configured, `handle_message` performs only the
discovery action on this turn — the stored cart and the store-call traces
are untouched even if `shopping_cart = "list"` is also set — and it returns
`False` (no user input required), so an automatic continue-turn follows. -/
theorem discovery_action_has_priority (st : St) (raw : DiscoveryResponse)
    (data_source : String) (filt : ℚ)
    (hd : keyNonEmpty st.context "discovery_string" = true) :
    ∃ st', handle_message_dispatch st true raw data_source filt =
        .ok (st', false) ∧
      st'.cart = st.cart ∧ st'.deleted = st.deleted ∧
      st'.added = st.added ∧ st'.customer = st.customer ∧
      st'.context = context_merge st.context
        [("discovery_result", render_discovery_items
          (format_discovery_response (apply_score_filter raw filt)
            data_source))] ∧
      st'.response_tuple =
        format_discovery_response (apply_score_filter raw filt)
          data_source := by
  refine ⟨(handle_DiscoveryQuery st raw data_source filt).1, ?_, rfl, rfl,
    rfl, rfl, rfl, rfl⟩
  unfold handle_message_dispatch
  rw [if_pos (show keyNonEmpty st.context "discovery_string" = true ∧
    (true : Bool) = true from ⟨hd, rfl⟩)]
  rfl

/-- A context in which the dialogue service set both `discovery_string` and
`shopping_cart = "list"` on the same turn. -/
def stDiscList : St :=
  { context := [("discovery_string", "red socks".data),
      ("shopping_cart", "list".data)]
    customer := some ⟨"ann@example.com".data, "Ann".data, "Lee".data⟩
    response_tuple := []
    cart := ["hat".data]
    deleted := []
    added := [] }

/-- Closed instance of `discovery_action_has_priority` on a context that
also carries `shopping_cart = "list"`. -/
theorem discovery_action_has_priority_witness :
    ∃ st', handle_message_dispatch stDiscList true {} "ibm_store" 0 =
        .ok (st', false) ∧
      st'.cart = stDiscList.cart ∧ st'.deleted = stDiscList.deleted ∧
      st'.added = stDiscList.added ∧ st'.customer = stDiscList.customer ∧
      st'.context = context_merge stDiscList.context
        [("discovery_result", render_discovery_items
          (format_discovery_response (apply_score_filter {} 0)
            "ibm_store"))] ∧
      st'.response_tuple =
        format_discovery_response (apply_score_filter {} 0) "ibm_store" :=
  discovery_action_has_priority stDiscList {} "ibm_store" 0 (by decide)

/-- C9: for source `amazon`, on an HTML blob containing the anchor-opening
pattern `"<a href="` two or more times — an occurrence inside `A` and the
final occurrence right after `A`, with no occurrence later — URL extraction
returns the URL taken from the last occurrence: the substring starting one
character past the pattern (stripping the opening boundary character `q1`)
and ending one character before the next `'>'` (stripping the closing
boundary character `q2`); when the pattern is absent the URL is the empty
string. -/
theorem amazon_url_from_last_anchor (A url tail : Str) (q1 q2 : Char)
    (hfirst : ∃ i, OccursAt "<a href=".data A i)
    (hlast : ∀ q, A.length < q →
      q < (A ++ "<a href=".data ++ (q1 :: (url ++ q2 :: '>' :: tail))).length →
      ¬ OccursAt "<a href=".data
        (A ++ "<a href=".data ++ (q1 :: (url ++ q2 :: '>' :: tail))) q)
    (hnogt : '>' ∉ q1 :: (url ++ [q2])) :
    get_product_url
      { html := some
          (A ++ "<a href=".data ++ (q1 :: (url ++ q2 :: '>' :: tail))) }
      "amazon" = url ∧
    ∀ html : Str, (∀ p, ¬ OccursAt "<a href=".data html p) →
      get_product_url { html := some html } "amazon" = [] := by
  have htagne : ("<a href=".data : Str) ≠ [] := by decide
  constructor
  · rw [List.append_assoc]
    rw [List.append_assoc] at hlast
    obtain ⟨i, hi⟩ := hfirst
    have hAne : A ≠ [] := by
      intro hA
      subst hA
      exact not_occursAt_of_length_le htagne (Nat.zero_le i) hi
    have hApos : 0 < A.length := List.length_pos.mpr hAne
    have hdropA :
        (A ++ ("<a href=".data ++ (q1 :: (url ++ q2 :: '>' :: tail)))).drop
          A.length = "<a href=".data ++ (q1 :: (url ++ q2 :: '>' :: tail)) :=
      List.drop_left A _
    have hocc : OccursAt "<a href=".data
        (A ++ ("<a href=".data ++ (q1 :: (url ++ q2 :: '>' :: tail))))
        A.length := by
      unfold OccursAt
      rw [hdropA]
      exact List.isPrefixOf_iff_prefix.mpr (List.prefix_append _ _)
    have hlast' : ∀ r, A.length < r →
        ¬ OccursAt "<a href=".data
          (A ++ ("<a href=".data ++ (q1 :: (url ++ q2 :: '>' :: tail)))) r := by
      intro r hr
      by_cases hrlen : r <
          (A ++ ("<a href=".data ++ (q1 :: (url ++ q2 :: '>' :: tail)))).length
      · exact hlast r hr hrlen
      · exact not_occursAt_of_length_le htagne (Nat.le_of_not_lt hrlen)
    have hrfind : subRFind "<a href=".data
        (A ++ ("<a href=".data ++ (q1 :: (url ++ q2 :: '>' :: tail)))) =
        some A.length :=
      subRFind_eq_of_last_occurrence htagne hocc hlast'
    have hpyr : pyRFind
        (A ++ ("<a href=".data ++ (q1 :: (url ++ q2 :: '>' :: tail))))
        "<a href=".data = (A.length : Int) := by
      unfold pyRFind
      rw [hrfind]
    have hdrop8 :
        (A ++ ("<a href=".data ++ (q1 :: (url ++ q2 :: '>' :: tail)))).drop
          (A.length + 8) = q1 :: (url ++ q2 :: '>' :: tail) := by
      rw [← List.drop_drop, hdropA]
      exact List.drop_left' rfl
    have hBshape : (q1 :: (url ++ q2 :: '>' :: tail)) =
        (q1 :: (url ++ [q2])) ++ '>' :: tail := by
      simp
    have hxslen : (q1 :: (url ++ [q2])).length = url.length + 2 := by
      simp
    have hfindgt : subFind ['>'] (q1 :: (url ++ q2 :: '>' :: tail)) =
        some (url.length + 2) := by
      rw [hBshape, subFind_single (q1 :: (url ++ [q2])) tail hnogt, hxslen]
    have hpyfind : pyFind
        (A ++ ("<a href=".data ++ (q1 :: (url ++ q2 :: '>' :: tail))))
        ['>'] (A.length + 8) =
        ((A.length + 8 + (url.length + 2) : Nat) : Int) := by
      unfold pyFind
      rw [hdrop8, hfindgt]
    have hdrop9 :
        (A ++ ("<a href=".data ++ (q1 :: (url ++ q2 :: '>' :: tail)))).drop
          (A.length + 9) = url ++ q2 :: '>' :: tail := by
      have h89 : A.length + 9 = (A.length + 8) + 1 := by omega
      rw [h89, ← List.drop_drop, hdrop8]
      rfl
    have hlen8 : ("<a href=".data).length = 8 := rfl
    have hpos2 : ((A.length + 8 + (url.length + 2) : Nat) : Int) > 0 := by
      exact_mod_cast (by omega : 0 < A.length + 8 + (url.length + 2))
    unfold get_product_url
    simp only [hpyr, Int.toNat_natCast, hlen8]
    rw [if_pos (by exact_mod_cast hApos : (0 : Int) < (A.length : Int))]
    rw [hpyfind, if_pos hpos2, Int.toNat_natCast]
    unfold pySlice
    have ha9 : A.length + 8 + 1 = A.length + 9 := by omega
    have hb : A.length + 8 + (url.length + 2) - 1 - (A.length + 8 + 1) =
        url.length := by omega
    rw [ha9, hb, hdrop9]
    exact List.take_left url _
  · intro html hnone
    have hnofind : subRFind "<a href=".data html = none := by
      rcases h : subRFind "<a href=".data html with _ | p
      · rfl
      · exact absurd (occursAt_of_subRFind_some h) (hnone p)
    have hpyr : pyRFind html "<a href=".data = -1 := by
      unfold pyRFind
      rw [hnofind]
    unfold get_product_url
    simp only [hpyr]
    rw [if_neg (by decide : ¬((-1 : Int) > 0))]
    simp

/-- The part of a concrete Amazon HTML blob before its final anchor: it
contains a first `"<a href="` anchor at index 8. -/
def urlA : Str := "<p>x</p><a href=\"u1\">one</a>".data

/-- The URL carried by the final anchor of the concrete blob. -/
def urlLast : Str := "http://second.example/b".data

/-- The remainder of the concrete blob after the final anchor's `>`. -/
def urlTail : Str := "two</a>".data

/-- Closed instance of `amazon_url_from_last_anchor` on a blob with two
anchors: the URL of the second (last) anchor is returned. -/
theorem amazon_url_from_last_anchor_witness :
    get_product_url
      { html := some (urlA ++ "<a href=".data ++
          ('"' :: (urlLast ++ '"' :: '>' :: urlTail))) }
      "amazon" = urlLast ∧
    ∀ html : Str, (∀ p, ¬ OccursAt "<a href=".data html p) →
      get_product_url { html := some html } "amazon" = [] := by
  have h : ∀ q < (urlA ++ "<a href=".data ++
        ('"' :: (urlLast ++ '"' :: '>' :: urlTail))).length,
      urlA.length < q →
      ¬ OccursAt "<a href=".data
        (urlA ++ "<a href=".data ++
          ('"' :: (urlLast ++ '"' :: '>' :: urlTail))) q := by
    decide
  exact amazon_url_from_last_anchor urlA urlLast urlTail '"' '"'
    ⟨8, by decide⟩ (fun q h1 h2 => h q h2 h1) (by decide)

end WOS
